import Mathlib

/-!
Shallow embedding of `src/parse.py` (a BeautifulSoup/selenium scraper for the
webscraper.io laptops test site) and proofs about the claims of its
specification.

Modelling conventions:
* Parsed markup is represented by records holding exactly the pieces the
  source queries: a listing page's pagination item texts and product cards;
  a product card's selected elements (`.title` attribute values, `.description`
  text, `.price` text, `data-rating` attribute, reviews text).
* Python exceptions become an explicit error type `PyError`; a fallible
  Python expression becomes `Except PyError`.
* Python `float(...)` values are modelled as exact decimals (integer
  mantissa and a base-ten exponent), since every number the program parses
  is a plain decimal literal.
* The selenium driver is mutable state: its current page (a URL) is threaded
  explicitly.  The websites are modelled as total functions from the request
  (listing page number / detail URL) to the markup served.
* `requests.get` and the CSV writer are external capabilities; the fetch log
  and the written rows are returned explicitly so that theorems can speak
  about them.
-/

namespace Scrape

/-! ### Python string primitives -/

/-- Value of a list of decimal digit characters, most significant first. -/
def digitsVal (cs : List Char) : Nat :=
  cs.foldl (fun a c => a * 10 + (c.toNat - 48)) 0

/-- Parse a nonempty all-digit character list, as the digit part of
Python `int()`. -/
def parseDigits (cs : List Char) : Option Nat :=
  if cs.isEmpty then none
  else if cs.all Char.isDigit then some (digitsVal cs)
  else none

/-- Strip leading and trailing whitespace, as Python `int()`/`float()` do. -/
def pyStrip (cs : List Char) : List Char :=
  ((cs.dropWhile Char.isWhitespace).reverse.dropWhile Char.isWhitespace).reverse

/-- Python `int(s)`: optional sign, then decimal digits; anything else raises
`ValueError`, modelled as `none`.  (Underscore separators and non-ASCII
digits are not used by this program and are not modelled.) -/
def pyInt (s : String) : Option Int :=
  match pyStrip s.toList with
  | [] => none
  | c :: rest =>
    if c = '-' then (parseDigits rest).map (fun n => -(n : Int))
    else if c = '+' then (parseDigits rest).map (fun n => (n : Int))
    else (parseDigits (c :: rest)).map (fun n => (n : Int))

/-- An exact decimal number `mant / 10 ^ exp`: the model of the values the
program obtains from Python `float(...)` (all inputs are decimal literals). -/
structure Decimal where
  mant : Int
  exp : Nat
  deriving DecidableEq, Repr

/-- Decimal value from sign, integer-part digits and fractional-part digits. -/
def decimalOfParts (neg : Bool) (ip fp : List Char) : Decimal :=
  let m : Nat := digitsVal ip * 10 ^ fp.length + digitsVal fp
  ⟨if neg then -(m : Int) else (m : Int), fp.length⟩

/-- Unsigned part of Python `float(s)`: digits with an optional decimal
point, at least one digit overall (`"12"`, `"12."`, `".5"`, `"12.5"`).
Exponents, `inf` and `nan` are not used by this program and not modelled. -/
def parseUnsignedFloat (neg : Bool) (cs : List Char) : Option Decimal :=
  let ip := cs.takeWhile Char.isDigit
  match cs.drop ip.length with
  | [] => if ip.isEmpty then none else some (decimalOfParts neg ip [])
  | '.' :: fp =>
    if fp.all Char.isDigit && !(ip.isEmpty && fp.isEmpty) then
      some (decimalOfParts neg ip fp)
    else none
  | _ => none

/-- Python `float(s)` on the decimal literals this program encounters;
`none` models a raised `ValueError`. -/
def pyFloat (s : String) : Option Decimal :=
  match pyStrip s.toList with
  | [] => none
  | c :: rest =>
    if c = '-' then parseUnsignedFloat true rest
    else if c = '+' then parseUnsignedFloat false rest
    else parseUnsignedFloat false (c :: rest)

/-- Python `s.replace("$", "")`: removing every dollar sign. -/
def removeDollars (s : String) : String :=
  String.mk (s.toList.filter (fun c => c != '$'))

/-- Helper for `pySplit`: accumulate the current token (reversed). -/
def pySplitGo (cur : List Char) : List Char → List (List Char)
  | [] => if cur.isEmpty then [] else [cur.reverse]
  | c :: rest =>
    if c.isWhitespace then
      if cur.isEmpty then pySplitGo [] rest
      else cur.reverse :: pySplitGo [] rest
    else pySplitGo (c :: cur) rest

/-- Python `s.split()` with no argument: split on whitespace runs,
dropping empty tokens. -/
def pySplit (s : String) : List String :=
  (pySplitGo [] s.toList).map String.mk

/-- True when the characters contain a `://` scheme separator. -/
def hasSchemeSep : List Char → Bool
  | ':' :: '/' :: '/' :: _ => true
  | _ :: rest => hasSchemeSep rest
  | [] => false

/-- Python `urljoin(base, url)` for the shapes this program uses: an
absolute URL is kept, a relative path is appended to the base (the base
always ends in a slash here).  Other urljoin subtleties are not exercised
by the program and are not modelled. -/
def urljoin (base url : String) : String :=
  if url.isEmpty then base
  else if hasSchemeSep url.toList then url
  else base ++ url

/-- Python `range(a, b)` as a list of integers. -/
def pythonRange (a b : Int) : List Int :=
  (List.range (b - a).toNat).map (fun i => a + Int.ofNat i)

/-- Python dict assignment `d[k] = v` on an insertion-ordered association
list: an existing key keeps its position and gets the new value, a new key
is appended. -/
def dictInsert (d : List (String × Decimal)) (k : String) (v : Decimal) :
    List (String × Decimal) :=
  match d with
  | [] => [(k, v)]
  | (k0, v0) :: rest =>
    if k0 = k then (k0, v) :: rest else (k0, v0) :: dictInsert rest k v

/-! ### Errors and the data model -/

/-- The Python exceptions this program can raise or catch. -/
inductive PyError
  /-- Python `TypeError`: subscripting the `None` returned by a failed `select_one`. -/
  | typeError
  /-- Python `KeyError`: a missing attribute on a Tag subscript. -/
  | keyError
  /-- Python `ValueError`: `int(...)` or `float(...)` on a non-numeric string. -/
  | valueError
  /-- Python `IndexError`: list subscript out of range. -/
  | indexError
  /-- selenium `NoSuchElementException` from `find_element`. -/
  | noSuchElement
  /-- selenium `ElementClickInterceptedException` from `click`. -/
  | clickIntercepted
  deriving DecidableEq, Repr

/-- The `.title` anchor of a product card: its `title` and `href`
attributes (each may be absent). -/
structure TitleEl where
  title : Option String
  href : Option String
  deriving DecidableEq, Repr

/-- One product card (`.thumbnail`): the query results the source reads.
A `none` models a missing element (`select_one` returning `None`) or a
missing attribute. -/
structure ProductSoup where
  titleEl : Option TitleEl
  descriptionEl : Option String
  priceEl : Option String
  ratingEl : Option String
  reviewsEl : Option String
  deriving DecidableEq, Repr

/-- One listing page: the pagination item texts (absent when there is no
`.pagination` control) and the product cards in document order. -/
structure PageSoup where
  pagination : Option (List String)
  thumbnails : List ProductSoup
  deriving DecidableEq, Repr

/-- One `button` inside the `.swatches` control of a detail page.
`intercepts` is the number of initially intercepted click attempts before a
click succeeds (the activation eventually succeeds after finitely many
interceptions); `displayedPrice` is the `.price` text shown once this
button's click has succeeded. -/
structure SwatchButton where
  disabled : Bool
  value : String
  intercepts : Nat
  displayedPrice : String
  deriving DecidableEq, Repr

/-- A product detail page: `none` when it has no `.swatches` element. -/
structure DetailPage where
  swatches : Option (List SwatchButton)
  deriving DecidableEq, Repr

/-- The external world: `fetch` is `requests.get` on the laptops listing
(`none` = no query parameter, `some p` = `page=p`), `detail` is the page the
browser renders for a URL. -/
structure Env where
  fetch : Option Int → PageSoup
  detail : String → DetailPage

/-- The browser session state: the URL the shared driver currently shows. -/
abbrev DriverState := Option String

/-- The `Product` dataclass. -/
structure Product where
  title : String
  description : String
  price : Decimal
  rating : Int
  num_of_reviews : Int
  additional_info : List (String × List (String × Decimal))
  url : String
  deriving DecidableEq, Repr

/-- The source's `PRODUCT_FIELDS`: the dataclass field names in declaration order. -/
def PRODUCT_FIELDS : List String :=
  ["title", "description", "price", "rating", "num_of_reviews",
   "additional_info", "url"]

def BASE_URL : String := "https://webscraper.io/"

def LAPTOP_URL : String :=
  urljoin BASE_URL "test-sites/e-commerce/static/computers/laptops"

/-! ### Variant price resolver (`parse_hdd_block_prices`) -/

/-- One `button.click()` attempt: intercepted while interception budget
remains, successful once it is exhausted. -/
def buttonClick (remaining : Nat) : Except PyError Unit :=
  if remaining = 0 then .ok () else .error .clickIntercepted

/-- The `while not is_clickable` loop around `button.click()`: an
intercepted attempt is caught and the same click retried; any other outcome
ends the loop.  Returns the total number of click attempts issued. -/
def clickUntilSuccess : Nat → Except PyError Nat
  | 0 =>
    match buttonClick 0 with
    | .ok _ => .ok 1
    | .error e => .error e
  | n + 1 =>
    match buttonClick (n + 1) with
    | .ok _ => .ok 1
    | .error .clickIntercepted => (clickUntilSuccess n).map (· + 1)
    | .error e => .error e

/-- The `for button in buttons` loop: skip disabled buttons, click an
enabled one until the click succeeds, then record
`prices[button.value] = float(price.text.replace("$", ""))`. -/
def hddLoop : List SwatchButton → List (String × Decimal) →
    Except PyError (List (String × Decimal))
  | [], acc => .ok acc
  | b :: rest, acc =>
    if b.disabled then hddLoop rest acc
    else
      match clickUntilSuccess b.intercepts with
      | .error e => .error e
      | .ok _ =>
        match pyFloat (removeDollars b.displayedPrice) with
        | none => .error .valueError
        | some q => hddLoop rest (dictInsert acc b.value q)

/-- Body of `parse_hdd_block_prices` once the driver shows the detail page:
`find_element(By.CLASS_NAME, "swatches")` then the button loop. -/
def hddOnPage (dp : DetailPage) : Except PyError (List (String × Decimal)) :=
  match dp.swatches with
  | none => .error .noSuchElement
  | some bs => hddLoop bs []

/-- Embeds `parse_hdd_block_prices`: read the card's `.title` href, navigate the
driver to the joined detail URL, and collect one price per enabled swatch
button.  The returned state is the driver's page afterwards. -/
def parse_hdd_block_prices (env : Env) (s : DriverState) (ps : ProductSoup) :
    Except PyError (List (String × Decimal)) × DriverState :=
  match ps.titleEl with
  | none => (.error .typeError, s)
  | some te =>
    match te.href with
    | none => (.error .keyError, s)
    | some href =>
      let durl := urljoin BASE_URL href
      (hddOnPage (env.detail durl), some durl)

/-! ### Product card extractor (`parse_single_product`) -/

/-- Turn an optional query result into the exception its absence raises. -/
def exceptOf (e : PyError) : Option α → Except PyError α
  | none => .error e
  | some a => .ok a

/-- Field extraction of `parse_single_product`, given the already-computed
hdd price mapping: title attribute, description text, price text with
dollar signs removed parsed as a float, `data-rating` attribute parsed as
an int, first whitespace token of the reviews text parsed as an int, and
the joined detail URL. -/
def buildProduct (hdd : Except PyError (List (String × Decimal)))
    (ps : ProductSoup) : Except PyError Product :=
  Except.bind hdd fun hddv =>
  Except.bind (exceptOf .typeError ps.titleEl) fun te =>
  Except.bind (exceptOf .keyError te.title) fun ttl =>
  Except.bind (exceptOf .typeError ps.descriptionEl) fun desc =>
  Except.bind (exceptOf .typeError ps.priceEl) fun ptext =>
  Except.bind (exceptOf .valueError (pyFloat (removeDollars ptext))) fun price =>
  Except.bind (exceptOf .typeError ps.ratingEl) fun rattr =>
  Except.bind (exceptOf .valueError (pyInt rattr)) fun rating =>
  Except.bind (exceptOf .typeError ps.reviewsEl) fun rtext =>
  Except.bind (exceptOf .indexError (pySplit rtext).head?) fun tok =>
  Except.bind (exceptOf .valueError (pyInt tok)) fun nrev =>
  Except.bind (exceptOf .keyError te.href) fun href =>
  .ok ⟨ttl, desc, price, rating, nrev, [("hdd_prices", hddv)],
       urljoin BASE_URL href⟩

/-- Embeds `parse_single_product`: the hdd prices are resolved first (navigating
the driver), then the card's fields are read; a missing anchor raises. -/
def parse_single_product (env : Env) (s : DriverState) (ps : ProductSoup) :
    Except PyError Product × DriverState :=
  let h := parse_hdd_block_prices env s ps
  (buildProduct h.1 ps, h.2)

/-- The list comprehension of `get_single_page_products`: parse each card
in document order, threading the driver, aborting on the first failure. -/
def parseProducts (env : Env) (s : DriverState) :
    List ProductSoup → Except PyError (List Product) × DriverState
  | [] => (.ok [], s)
  | ps :: rest =>
    let r := parse_single_product env s ps
    match r.1 with
    | .error e => (.error e, r.2)
    | .ok p =>
      let w := parseProducts env r.2 rest
      (w.1.map (fun l => p :: l), w.2)

/-- Embeds `get_single_page_products`. -/
def get_single_page_products (env : Env) (s : DriverState) (page : PageSoup) :
    Except PyError (List Product) × DriverState :=
  parseProducts env s page.thumbnails

/-! ### Pagination resolver (`get_num_pages`) -/

/-- Embeds `get_num_pages`: 1 when there is no `.pagination` control, otherwise
`int(pagination.select("li")[-2].text)` — an `IndexError` when there are
fewer than two items, a `ValueError` when the text is not a number. -/
def get_num_pages (page : PageSoup) : Except PyError Int :=
  match page.pagination with
  | none => .ok 1
  | some items =>
    if h : 2 ≤ items.length then
      match pyInt (items.get ⟨items.length - 2, by omega⟩) with
      | some n => .ok n
      | none => .error .valueError
    else .error .indexError

/-! ### Listing walker (`get_laptop_products`) -/

/-- Outcome of a walk: the products (or the propagated exception), the
driver state afterwards, and the log of listing-page fetches issued
(`none` = the parameterless first fetch, `some p` = `page=p`). -/
structure WalkOut where
  result : Except PyError (List Product)
  driver : DriverState
  fetched : List (Option Int)
  deriving Repr

/-- The `for page_num in range(2, num_pages + 1)` loop: fetch each page,
parse its products, and append, aborting on the first failure. -/
def walkFrom (env : Env) (s : DriverState) : List Int → WalkOut
  | [] => ⟨.ok [], s, []⟩
  | p :: rest =>
    let soup := env.fetch (some p)
    let r := parseProducts env s soup.thumbnails
    match r.1 with
    | .error e => ⟨.error e, r.2, [some p]⟩
    | .ok l =>
      let w := walkFrom env r.2 rest
      ⟨w.result.map (fun l2 => l ++ l2), w.driver, some p :: w.fetched⟩

/-- Embeds `get_laptop_products`: fetch the first page without a page parameter,
resolve the page count, parse page 1, then walk pages 2 .. num_pages. -/
def get_laptop_products (env : Env) (s : DriverState) : WalkOut :=
  let first := env.fetch none
  match get_num_pages first with
  | .error e => ⟨.error e, s, [none]⟩
  | .ok n =>
    let r := parseProducts env s first.thumbnails
    match r.1 with
    | .error e => ⟨.error e, r.2, [none]⟩
    | .ok l =>
      let w := walkFrom env r.2 (pythonRange 2 (n + 1))
      ⟨w.result.map (fun l2 => l ++ l2), w.driver, none :: w.fetched⟩

/-! ### Writer (`write_products_to_csv`) and `main` -/

/-- One CSV cell as handed to `csv.writer`: the value written, before
text rendering (rendering is the CSV library's concern). -/
inductive Cell
  | str (s : String)
  | float (q : Decimal)
  | int (n : Int)
  | dict (d : List (String × List (String × Decimal)))
  deriving DecidableEq, Repr

/-- Embeds `astuple(product)`: the field values in declaration order. -/
def astuple (p : Product) : List Cell :=
  [.str p.title, .str p.description, .float p.price, .int p.rating,
   .int p.num_of_reviews, .dict p.additional_info, .str p.url]

/-- Embeds `write_products_to_csv`: the rows written to `products.csv` — the
header row of field names, then one row per product. -/
def write_products_to_csv (products : List Product) : List (List Cell) :=
  (PRODUCT_FIELDS.map Cell.str) :: products.map astuple

/-- Embeds `main`: run the walk, and only when it succeeds write the CSV.  An
`.error` outcome models the run terminating with an uncaught exception and
no output file being produced. -/
def mainRun (env : Env) (s : DriverState) :
    Except PyError (List (List Cell)) × DriverState :=
  let w := get_laptop_products env s
  (w.result.map write_products_to_csv, w.driver)

/-! ### Derived views used by the theorems -/

/-- The i-th page the walker visits (0-based): page 1 is fetched without a
page parameter, walked page `k + 1` is fetched as `page=k+2`. -/
def walkedPage (env : Env) : Nat → PageSoup
  | 0 => env.fetch none
  | k + 1 => env.fetch (some (2 + Int.ofNat k))

/-- The products of one page, parsed from a fixed driver state (parse
results do not depend on the driver state; see `parseProducts_fst_indep`). -/
def pureParsePage (env : Env) (soup : PageSoup) : Option (List Product) :=
  ((parseProducts env none soup.thumbnails).1).toOption

/-! ### Concrete fixtures for evaluated witnesses and counterexamples -/

/-- A complete product card. -/
def cardFull : ProductSoup :=
  ⟨some ⟨some "ASUS X", some "product/1"⟩, some "descA", some "$999.99",
   some "4", some "7 reviews"⟩

/-- A second complete product card. -/
def cardFull2 : ProductSoup :=
  ⟨some ⟨some "Acer Y", some "product/2"⟩, some "descB", some "$296.99",
   some "2", some "11 reviews"⟩

/-- A product card whose `data-rating` anchor is missing. -/
def cardNoRating : ProductSoup :=
  ⟨some ⟨some "Asus Z", some "product/3"⟩, some "descC", some "$55.99",
   none, some "2 reviews"⟩

/-- A minimal card used when only the detail link matters. -/
def cardLink : ProductSoup := ⟨some ⟨none, some "product/5"⟩, none, none, none, none⟩

/-- An environment whose detail pages have an empty swatches control. -/
def envPlain : Env := ⟨fun _ => ⟨none, []⟩, fun _ => ⟨some []⟩⟩

/-- A two-page listing: page 1 declares 2 pages and has one card, page 2
has one card; detail pages have an empty swatches control. -/
def envTwoPages : Env :=
  ⟨fun p =>
    if p = some 2 then ⟨none, [cardFull2]⟩
    else if p = none then ⟨some ["1", "2", "»"], [cardFull]⟩
    else ⟨none, []⟩,
   fun _ => ⟨some []⟩⟩

/-- A one-page listing whose only card is missing its rating attribute. -/
def envBadCard : Env := ⟨fun _ => ⟨none, [cardNoRating]⟩, fun _ => ⟨some []⟩⟩

/-- Detail pages with three swatch options, one disabled, distinct labels. -/
def envThreeOptions : Env :=
  ⟨fun _ => ⟨none, []⟩,
   fun _ => ⟨some [⟨false, "128", 1, "$999.99"⟩, ⟨true, "256", 0, "$1099"⟩,
                   ⟨false, "512", 0, "$1124.99"⟩]⟩⟩

/-- Detail pages with three swatch options, one disabled, where the two
enabled options report the same value label. -/
def envDupLabels : Env :=
  ⟨fun _ => ⟨none, []⟩,
   fun _ => ⟨some [⟨false, "1TB", 0, "$100"⟩, ⟨false, "1TB", 0, "$200"⟩,
                   ⟨true, "2TB", 0, "$300"⟩]⟩⟩

/-- Detail pages with two enabled swatch options sharing a value label. -/
def envLastWins : Env :=
  ⟨fun _ => ⟨none, []⟩,
   fun _ => ⟨some [⟨false, "1TB", 0, "$100"⟩, ⟨false, "1TB", 1, "$200.50"⟩]⟩⟩

/-- The record `cardFull` parses to under `envTwoPages`. -/
def prodFull : Product :=
  ⟨"ASUS X", "descA", ⟨99999, 2⟩, 4, 7, [("hdd_prices", [])],
   "https://webscraper.io/product/1"⟩

/-- The record `cardFull2` parses to under `envTwoPages`. -/
def prodFull2 : Product :=
  ⟨"Acer Y", "descB", ⟨29699, 2⟩, 2, 11, [("hdd_prices", [])],
   "https://webscraper.io/product/2"⟩

/-! ### Basic lemmas -/

/-- The click loop always ends in success after `n + 1` attempts. -/
theorem clickUntilSuccess_eq (n : Nat) : clickUntilSuccess n = .ok (n + 1) := by
  induction n with
  | zero => rfl
  | succ k ih => simp [clickUntilSuccess, buttonClick, ih, Except.map]

/-- The button loop never surfaces an intercepted click. -/
theorem hddLoop_no_intercept (bs : List SwatchButton) :
    ∀ acc, hddLoop bs acc ≠ .error .clickIntercepted := by
  induction bs with
  | nil => intro acc h; exact Except.noConfusion h
  | cons b rest ih =>
    intro acc h
    by_cases hd : b.disabled
    · rw [hddLoop, if_pos hd] at h; exact ih acc h
    · rw [hddLoop, if_neg hd, clickUntilSuccess_eq] at h
      cases hq : pyFloat (removeDollars b.displayedPrice) with
      | none => rw [hq] at h; exact PyError.noConfusion (Except.error.inj h)
      | some q => rw [hq] at h; exact ih _ h

/-- Inserting a fresh key appends it. -/
theorem dictInsert_fresh (d : List (String × Decimal)) (k : String) (v : Decimal)
    (h : ∀ p ∈ d, p.1 ≠ k) : dictInsert d k v = d ++ [(k, v)] := by
  induction d with
  | nil => rfl
  | cons p rest ih =>
    rw [dictInsert, if_neg (h p (List.mem_cons_self p rest))]
    rw [ih (fun q hq => h q (List.mem_cons_of_mem p hq))]
    rfl

/-- Inversion for `Except.bind` ending in `.ok`. -/
theorem bind_ok {α β : Type} {x : Except PyError α} {f : α → Except PyError β}
    {b : β} (h : Except.bind x f = .ok b) : ∃ a, x = .ok a ∧ f a = .ok b := by
  cases x with
  | error e => simp [Except.bind] at h
  | ok a => exact ⟨a, rfl, h⟩

/-- Inversion for `exceptOf` ending in `.ok`. -/
theorem exceptOf_ok {α : Type} {e : PyError} {o : Option α} {a : α}
    (h : exceptOf e o = .ok a) : o = some a := by
  cases o with
  | none => simp [exceptOf] at h
  | some b => simpa [exceptOf] using h

/-! ### State independence: every detail-page read is preceded by a
navigation, so no parse result depends on the driver's incoming page. -/

theorem parse_hdd_fst_indep (env : Env) (ps : ProductSoup) (s1 s2 : DriverState) :
    (parse_hdd_block_prices env s1 ps).1 = (parse_hdd_block_prices env s2 ps).1 := by
  rcases h1 : ps.titleEl with _ | te
  · simp [parse_hdd_block_prices, h1]
  · rcases h2 : te.href with _ | href <;> simp [parse_hdd_block_prices, h1, h2]

theorem parse_single_fst_indep (env : Env) (ps : ProductSoup) (s1 s2 : DriverState) :
    (parse_single_product env s1 ps).1 = (parse_single_product env s2 ps).1 := by
  simp only [parse_single_product]
  rw [parse_hdd_fst_indep env ps s1 s2]

theorem parseProducts_fst_indep (env : Env) (ts : List ProductSoup) :
    ∀ s1 s2, (parseProducts env s1 ts).1 = (parseProducts env s2 ts).1 := by
  induction ts with
  | nil => intro s1 s2; rfl
  | cons ps rest ih =>
    intro s1 s2
    simp only [parseProducts]
    rw [parse_single_fst_indep env ps s1 s2]
    cases (parse_single_product env s2 ps).1 with
    | error e => rfl
    | ok p =>
      rw [ih ((parse_single_product env s1 ps).2) ((parse_single_product env s2 ps).2)]

theorem pythonRange_length (a b : Int) :
    (pythonRange a b).length = (b - a).toNat := by
  unfold pythonRange
  rw [List.length_map, List.length_range]

theorem pythonRange_get (a b : Int) (i : Nat)
    (h : i < (pythonRange a b).length) :
    (pythonRange a b).get ⟨i, h⟩ = a + Int.ofNat i := by
  simp only [pythonRange, List.get_eq_getElem, List.getElem_map, List.getElem_range]

/-! ### Successful parses: lengths, order, membership -/

theorem parseProducts_ok_spec (env : Env) (ts : List ProductSoup) :
    ∀ (s : DriverState) (l : List Product),
      (parseProducts env s ts).1 = .ok l →
      l.length = ts.length ∧
      ∀ (j : Nat) (hj : j < ts.length) (hl : j < l.length),
        (parse_single_product env none (ts.get ⟨j, hj⟩)).1 = .ok (l.get ⟨j, hl⟩) := by
  induction ts with
  | nil =>
    intro s l h
    simp only [parseProducts] at h
    cases h
    refine ⟨rfl, ?_⟩
    intro j hj hl
    simp at hj
  | cons ps rest ih =>
    intro s l h
    simp only [parseProducts] at h
    cases hps : (parse_single_product env s ps).1 with
    | error e => rw [hps] at h; exact Except.noConfusion h
    | ok p =>
      rw [hps] at h
      cases hrest : (parseProducts env ((parse_single_product env s ps).2) rest).1 with
      | error e => rw [hrest] at h; exact Except.noConfusion h
      | ok l1 =>
        rw [hrest] at h
        cases h
        obtain ⟨hlen, hget⟩ := ih _ _ hrest
        refine ⟨by simp [hlen], ?_⟩
        intro j hj hl
        cases j with
        | zero =>
          simp only [List.get]
          rw [parse_single_fst_indep env ps none s, hps]
        | succ k =>
          simp only [List.get]
          exact hget k (by simpa using hj) (by simpa using hl)

theorem parseProducts_ok_mem (env : Env) (ts : List ProductSoup)
    (s : DriverState) (l : List Product)
    (h : (parseProducts env s ts).1 = .ok l) :
    ∀ t ∈ ts, ∃ pr, (parse_single_product env none t).1 = .ok pr := by
  intro t ht
  obtain ⟨hlen, hget⟩ := parseProducts_ok_spec env ts s l h
  obtain ⟨⟨j, hj⟩, rfl⟩ := List.mem_iff_get.mp ht
  exact ⟨l.get ⟨j, by omega⟩, hget j hj (by omega)⟩

/-! ### The page walk -/

theorem walkFrom_ok (env : Env) (nums : List Int) :
    ∀ (s : DriverState) (l : List Product),
      (walkFrom env s nums).result = .ok l →
      (walkFrom env s nums).fetched = nums.map some ∧
      ∃ pls : List (List Product),
        l = pls.flatten ∧ pls.length = nums.length ∧
        ∀ (i : Nat) (hi : i < nums.length) (hp : i < pls.length),
          (parseProducts env none
              (env.fetch (some (nums.get ⟨i, hi⟩))).thumbnails).1 =
            .ok (pls.get ⟨i, hp⟩) := by
  induction nums with
  | nil =>
    intro s l h
    simp only [walkFrom] at h ⊢
    cases h
    refine ⟨rfl, [], rfl, rfl, ?_⟩
    intro i hi hp
    simp at hi
  | cons p rest ih =>
    intro s l h
    simp only [walkFrom] at h
    cases hps : (parseProducts env s (env.fetch (some p)).thumbnails).1 with
    | error e => rw [hps] at h; exact Except.noConfusion h
    | ok l0 =>
      rw [hps] at h
      simp only at h
      cases hrest : (walkFrom env
          ((parseProducts env s (env.fetch (some p)).thumbnails).2) rest).result with
      | error e => rw [hrest] at h; exact Except.noConfusion h
      | ok l1 =>
        rw [hrest] at h
        simp only [Except.map] at h
        cases h
        obtain ⟨hfetched, pls, hjoin, hlen, hget⟩ := ih _ _ hrest
        constructor
        · simp only [walkFrom, hps, List.map_cons]
          simp [hfetched]
        · refine ⟨l0 :: pls, by simp [hjoin], by simp [hlen], ?_⟩
          intro i hi hp
          cases i with
          | zero =>
            simp only [List.get]
            rw [parseProducts_fst_indep env _ none s, hps]
          | succ k =>
            simp only [List.get]
            exact hget k (by simpa using hi) (by simpa using hp)

/-! ### The hdd price loop on clean inputs -/

theorem hddLoop_keys (bs : List SwatchButton) :
    ∀ acc : List (String × Decimal),
      ((bs.filter (fun b => !b.disabled)).map SwatchButton.value).Nodup →
      (∀ p ∈ acc, p.1 ∉ (bs.filter (fun b => !b.disabled)).map SwatchButton.value) →
      (∀ b ∈ bs, b.disabled = false →
        (pyFloat (removeDollars b.displayedPrice)).isSome) →
      ∃ m, hddLoop bs acc = .ok m ∧
        m.map Prod.fst =
          acc.map Prod.fst ++ (bs.filter (fun b => !b.disabled)).map SwatchButton.value := by
  induction bs with
  | nil =>
    intro acc _ _ _
    exact ⟨acc, rfl, by simp⟩
  | cons b rest ih =>
    intro acc hnodup hdisj hparse
    by_cases hd : b.disabled
    · have hfilter : List.filter (fun b => !b.disabled) (b :: rest) =
          List.filter (fun b => !b.disabled) rest := by
        simp [List.filter_cons, hd]
      rw [hfilter] at hnodup hdisj
      rw [hddLoop, if_pos hd, hfilter]
      exact ih acc hnodup hdisj (fun c hc hcd => hparse c (List.mem_cons_of_mem b hc) hcd)
    · have hd' : b.disabled = false := by simpa using hd
      have hfilter : List.filter (fun b => !b.disabled) (b :: rest) =
          b :: List.filter (fun b => !b.disabled) rest := by
        simp [List.filter_cons, hd']
      obtain ⟨q, hq⟩ := Option.isSome_iff_exists.mp
        (hparse b (List.mem_cons_self b rest) hd')
      have hstep : hddLoop (b :: rest) acc = hddLoop rest (dictInsert acc b.value q) := by
        rw [hddLoop, if_neg hd, clickUntilSuccess_eq, hq]
      rw [hfilter] at hnodup hdisj
      have hbfresh : ∀ p ∈ acc, p.1 ≠ b.value := by
        intro p hp
        have := hdisj p hp
        simp only [List.map_cons, List.mem_cons] at this
        exact fun hne => this (Or.inl hne)
      have hnodup2 : (b.value ::
          (rest.filter (fun b => !b.disabled)).map SwatchButton.value).Nodup := by
        simpa using hnodup
      have hnodup' : ((rest.filter (fun b => !b.disabled)).map SwatchButton.value).Nodup :=
        (List.nodup_cons.mp hnodup2).2
      have hbnotin : b.value ∉ (rest.filter (fun b => !b.disabled)).map SwatchButton.value :=
        (List.nodup_cons.mp hnodup2).1
      have hdisj' : ∀ p ∈ acc ++ [(b.value, q)],
          p.1 ∉ (rest.filter (fun b => !b.disabled)).map SwatchButton.value := by
        intro p hp
        rcases List.mem_append.mp hp with hpa | hpb
        · intro hmem
          exact hdisj p hpa (by simp [hmem])
        · have : p = (b.value, q) := by simpa using hpb
          rw [this]
          exact hbnotin
      obtain ⟨m, hm, hkeys⟩ := ih (dictInsert acc b.value q)
        hnodup'
        (by rw [dictInsert_fresh acc b.value q hbfresh]; exact hdisj')
        (fun c hc hcd => hparse c (List.mem_cons_of_mem b hc) hcd)
      refine ⟨m, by rw [hstep, hm], ?_⟩
      rw [hkeys, dictInsert_fresh acc b.value q hbfresh, hfilter]
      simp

/-! ### A card without its rating attribute never parses -/

theorem ratingNone_not_ok (env : Env) (s : DriverState) (ps : ProductSoup)
    (hrat : ps.ratingEl = none) :
    ∀ pr, (parse_single_product env s ps).1 ≠ .ok pr := by
  intro pr hok
  simp only [parse_single_product, buildProduct] at hok
  obtain ⟨hddv, _, hok⟩ := bind_ok hok
  obtain ⟨te, _, hok⟩ := bind_ok hok
  obtain ⟨ttl, _, hok⟩ := bind_ok hok
  obtain ⟨desc, _, hok⟩ := bind_ok hok
  obtain ⟨ptext, _, hok⟩ := bind_ok hok
  obtain ⟨price, _, hok⟩ := bind_ok hok
  obtain ⟨rattr, hra, _⟩ := bind_ok hok
  rw [hrat] at hra
  exact Except.noConfusion hra

/-! ### A successful walk parses every fetched page -/

theorem walker_ok_fetched (env : Env) (s : DriverState) (l : List Product)
    (h : (get_laptop_products env s).result = .ok l) :
    ∀ p ∈ (get_laptop_products env s).fetched,
      ∃ lp, (parseProducts env none (env.fetch p).thumbnails).1 = .ok lp := by
  intro p hp
  simp only [get_laptop_products] at h hp
  cases hnum : get_num_pages (env.fetch none) with
  | error e => rw [hnum] at h; exact Except.noConfusion h
  | ok n =>
    rw [hnum] at h hp
    cases hfirst : (parseProducts env s (env.fetch none).thumbnails).1 with
    | error e => rw [hfirst] at h; exact Except.noConfusion h
    | ok l0 =>
      rw [hfirst] at h hp
      simp only at h hp
      cases hrest : (walkFrom env
          ((parseProducts env s (env.fetch none).thumbnails).2)
          (pythonRange 2 (n + 1))).result with
      | error e => rw [hrest] at h; simp [Except.map] at h
      | ok l1 =>
        obtain ⟨hfetched, _, _, _, _⟩ := walkFrom_ok env _ _ _ hrest
        rw [hfetched] at hp
        rcases List.mem_cons.mp hp with hp0 | hpmem
        · subst hp0
          refine ⟨l0, ?_⟩
          rw [parseProducts_fst_indep env _ none s, hfirst]
        · obtain ⟨q, hq, hqp⟩ := List.mem_map.mp hpmem
          obtain ⟨⟨i, hi⟩, rfl⟩ := List.mem_iff_get.mp hq
          obtain ⟨_, pls, _, hlen, hget⟩ := walkFrom_ok env _ _ _ hrest
          subst hqp
          exact ⟨pls.get ⟨i, by omega⟩, hget i hi (by omega)⟩

/-- Inversion for `Except.toOption`. -/
theorem toOption_ok {α : Type} {x : Except PyError α} {a : α}
    (h : x.toOption = some a) : x = .ok a := by
  cases x with
  | error e => simp [Except.toOption] at h
  | ok b => simpa [Except.toOption] using h

/-! ### Claim C2: the pagination policy -/

/-- C2 (amended): `get_num_pages` returns 1 when no pagination control is
present, and otherwise returns the numeric label of the second-to-last
pagination item; in particular, for pagination items
`["1", "2", "3", "»"]` it returns 3 (the second-to-last label is `"3"`,
not `"2"` as the specification's example says). -/
theorem num_pages_policy (p : PageSoup) :
    (p.pagination = none → get_num_pages p = .ok 1) ∧
    (∀ (items : List String) (n : Int) (h2 : 2 ≤ items.length),
      p.pagination = some items →
      pyInt (items.get ⟨items.length - 2,
        Nat.sub_lt (Nat.lt_of_lt_of_le Nat.zero_lt_two h2) Nat.zero_lt_two⟩) =
          some n →
      get_num_pages p = .ok n) := by
  constructor
  · intro h
    simp [get_num_pages, h]
  · intro items n h2 hp hn
    rw [get_num_pages, hp]
    dsimp only
    rw [dif_pos h2, hn]

/-- C2 counterexample: on pagination items `["1", "2", "3", "»"]` the
resolver returns 3, not 2 as the specification claims. -/
theorem num_pages_example_cex :
    get_num_pages ⟨some ["1", "2", "3", "»"], []⟩ = .ok 3 ∧
    (Except.ok 3 : Except PyError Int) ≠ .ok 2 := by
  constructor
  · rfl
  · intro h
    simp at h

/-- C2 witness: the policy applied at concrete pages. -/
theorem num_pages_policy_witness :
    get_num_pages ⟨none, []⟩ = .ok 1 ∧
    get_num_pages ⟨some ["1", "2", "3", "»"], []⟩ = .ok 3 :=
  ⟨(num_pages_policy ⟨none, []⟩).1 rfl,
   (num_pages_policy ⟨some ["1", "2", "3", "»"], []⟩).2
     ["1", "2", "3", "»"] 3 (by decide) rfl (by decide)⟩

/-! ### Claim C3: malformed pagination raises -/

/-- C3 (amended): when the pagination control is present but structurally
unexpected, `get_num_pages` raises (an `IndexError` for fewer than two
items, a `ValueError` for a non-numeric second-to-last label) rather than
returning 1. -/
theorem num_pages_malformed (p : PageSoup) (items : List String)
    (h1 : p.pagination = some items) :
    (items.length < 2 → get_num_pages p = .error .indexError) ∧
    (∀ h2 : 2 ≤ items.length,
      pyInt (items.get ⟨items.length - 2,
        Nat.sub_lt (Nat.lt_of_lt_of_le Nat.zero_lt_two h2) Nat.zero_lt_two⟩) =
          none →
      get_num_pages p = .error .valueError) := by
  constructor
  · intro hlt
    rw [get_num_pages, h1]
    dsimp only
    rw [dif_neg (by omega)]
  · intro h2 hn
    rw [get_num_pages, h1]
    dsimp only
    rw [dif_pos h2, hn]

/-- C3 counterexample: a present but single-item pagination control makes
the resolver raise an `IndexError`; it does not return 1. -/
theorem num_pages_malformed_cex :
    get_num_pages ⟨some ["»"], []⟩ = .error .indexError ∧
    (Except.error .indexError : Except PyError Int) ≠ .ok 1 := by
  constructor
  · rfl
  · intro h
    simp at h

/-- C3 witness: both malformed shapes at concrete pages. -/
theorem num_pages_malformed_witness :
    get_num_pages ⟨some ["»"], []⟩ = .error .indexError ∧
    get_num_pages ⟨some ["«", "»"], []⟩ = .error .valueError :=
  ⟨(num_pages_malformed ⟨some ["»"], []⟩ ["»"] rfl).1 (by decide),
   (num_pages_malformed ⟨some ["«", "»"], []⟩ ["«", "»"] rfl).2
     (by decide) (by decide)⟩

/-! ### Claim C4: product card field derivation -/

/-- C4: with all required anchors present, `parse_single_product` takes the
title from the card's `title` attribute, the price from the price text with
dollar signs stripped parsed as a decimal, and the review count from the
leading whitespace token of the reviews text parsed as an integer. -/
theorem single_product_fields (env : Env) (s : DriverState) (ps : ProductSoup)
    (te : TitleEl) (ttl desc ptext rattr rtext href tok : String)
    (toks : List String) (price : Decimal) (rating nrev : Int)
    (hdd : List (String × Decimal))
    (h1 : ps.titleEl = some te) (h2 : te.title = some ttl)
    (h3 : ps.descriptionEl = some desc) (h4 : ps.priceEl = some ptext)
    (h5 : pyFloat (removeDollars ptext) = some price)
    (h6 : ps.ratingEl = some rattr) (h7 : pyInt rattr = some rating)
    (h8 : ps.reviewsEl = some rtext) (h9 : pySplit rtext = tok :: toks)
    (h10 : pyInt tok = some nrev) (h11 : te.href = some href)
    (h12 : (parse_hdd_block_prices env s ps).1 = .ok hdd) :
    (parse_single_product env s ps).1 =
      .ok ⟨ttl, desc, price, rating, nrev, [("hdd_prices", hdd)],
           urljoin BASE_URL href⟩ := by
  simp only [parse_single_product]
  rw [h12]
  simp [buildProduct, exceptOf, Except.bind, h1, h2, h3, h4, h5, h6, h7, h8,
    h9, h10, h11]

/-- C4 witness: a concrete card with price text `"$999.99"` and reviews
text `"7 reviews"` yields price 999.99 and 7 reviews. -/
theorem single_product_fields_witness :
    (parse_single_product envPlain none cardFull).1 =
      .ok ⟨"ASUS X", "descA", ⟨99999, 2⟩, 4, 7, [("hdd_prices", [])],
           "https://webscraper.io/product/1"⟩ :=
  single_product_fields envPlain none cardFull ⟨some "ASUS X", some "product/1"⟩
    "ASUS X" "descA" "$999.99" "4" "7 reviews" "product/1" "7" ["reviews"]
    ⟨99999, 2⟩ 4 7 []
    rfl rfl rfl rfl (by decide) rfl (by decide) rfl rfl (by decide) rfl rfl

/-! ### Claim C6: the intercepted-click retry loop -/

/-- C6: an activation whose first `n` attempts are intercepted is retried
until it succeeds — the loop returns successfully after exactly `n + 1`
attempts, the intercepted condition never escapes the button loop, and the
price recorded for an enabled button is the one displayed after its
successful click. -/
theorem click_retry_behavior (n : Nat) (b : SwatchButton)
    (bs : List SwatchButton) (acc acc2 : List (String × Decimal)) (q : Decimal)
    (hb : b.disabled = false)
    (hq : pyFloat (removeDollars b.displayedPrice) = some q) :
    clickUntilSuccess n = .ok (n + 1) ∧
    hddLoop bs acc2 ≠ .error .clickIntercepted ∧
    hddLoop [b] acc = .ok (dictInsert acc b.value q) := by
  refine ⟨clickUntilSuccess_eq n, hddLoop_no_intercept bs acc2, ?_⟩
  rw [hddLoop, if_neg (by simp [hb]), clickUntilSuccess_eq, hq]
  rfl

/-- C6 witness: a button intercepted twice is clicked three times in all,
and its post-click price is recorded. -/
theorem click_retry_behavior_witness :
    clickUntilSuccess 2 = .ok 3 ∧
    hddLoop [⟨false, "1TB", 3, "$57"⟩] [] ≠ .error .clickIntercepted ∧
    hddLoop [⟨false, "1TB", 3, "$57"⟩] [] = .ok [("1TB", ⟨57, 0⟩)] :=
  click_retry_behavior 2 ⟨false, "1TB", 3, "$57"⟩ [⟨false, "1TB", 3, "$57"⟩]
    [] [] ⟨57, 0⟩ rfl (by decide)

/-! ### Claim C10: duplicate labels, last write wins -/

/-- C10: when two enabled option controls report the same value label, the
resolver keeps only the price read after the later click, so the mapping
has one entry for the two options. -/
theorem hdd_last_write_wins (env : Env) (s : DriverState) (ps : ProductSoup)
    (te : TitleEl) (href : String) (b1 b2 : SwatchButton) (q1 q2 : Decimal)
    (h1 : ps.titleEl = some te) (h2 : te.href = some href)
    (h3 : (env.detail (urljoin BASE_URL href)).swatches = some [b1, b2])
    (h4 : b1.disabled = false) (h5 : b2.disabled = false)
    (h6 : b2.value = b1.value)
    (h7 : pyFloat (removeDollars b1.displayedPrice) = some q1)
    (h8 : pyFloat (removeDollars b2.displayedPrice) = some q2) :
    (parse_hdd_block_prices env s ps).1 = .ok [(b1.value, q2)] := by
  rw [parse_hdd_block_prices, h1]
  dsimp only
  rw [h2]
  dsimp only
  rw [hddOnPage, h3]
  dsimp only
  rw [hddLoop, if_neg (by simp [h4]), clickUntilSuccess_eq, h7]
  dsimp only
  rw [hddLoop, if_neg (by simp [h5]), clickUntilSuccess_eq, h8]
  dsimp only
  simp [hddLoop, dictInsert, h6]

/-- C10 witness: two enabled `"1TB"` options with displayed prices `$100`
then `$200.50` resolve to the single entry `("1TB", 200.50)`. -/
theorem hdd_last_write_wins_witness :
    (parse_hdd_block_prices envLastWins none cardLink).1 =
      .ok [("1TB", ⟨20050, 2⟩)] :=
  hdd_last_write_wins envLastWins none cardLink ⟨none, some "product/5"⟩
    "product/5" ⟨false, "1TB", 0, "$100"⟩ ⟨false, "1TB", 1, "$200.50"⟩
    ⟨100, 0⟩ ⟨20050, 2⟩ rfl rfl rfl rfl rfl rfl (by decide) (by decide)

/-! ### Claim C8: a missing anchor aborts the run with no output -/

/-- C8: if any fetched page holds a card without its rating attribute, the
walk cannot succeed and `main` produces no CSV output. -/
theorem missing_rating_aborts (env : Env) (s : DriverState) (p : Option Int)
    (ts : ProductSoup)
    (hp : p ∈ (get_laptop_products env s).fetched)
    (hts : ts ∈ (env.fetch p).thumbnails)
    (hrat : ts.ratingEl = none) :
    (get_laptop_products env s).result.isOk = false ∧
    ((mainRun env s).1).isOk = false := by
  cases hres : (get_laptop_products env s).result with
  | error e =>
    constructor
    · rfl
    · simp only [mainRun]
      rw [hres]
      rfl
  | ok l =>
    exfalso
    obtain ⟨lp, hlp⟩ := walker_ok_fetched env s l hres p hp
    obtain ⟨pr, hpr⟩ := parseProducts_ok_mem env _ none lp hlp ts hts
    exact ratingNone_not_ok env none ts hrat pr hpr

/-- C8 witness: a run over a listing whose only card lacks the rating
attribute neither completes the walk nor writes any output. -/
theorem missing_rating_aborts_witness :
    (get_laptop_products envBadCard none).result.isOk = false ∧
    ((mainRun envBadCard none).1).isOk = false :=
  missing_rating_aborts envBadCard none none cardNoRating (by decide)
    (by decide) rfl

/-! ### Claim C5: one price entry per enabled option -/

/-- C5 (amended): on a detail page whose enabled options have pairwise
distinct value labels and parseable displayed prices, the resolver returns
one entry per enabled option, keyed by the option value labels in order,
and no entry for any disabled option; with 3 options of which one is
disabled that is exactly 2 entries. -/
theorem hdd_prices_enabled (env : Env) (s : DriverState) (ps : ProductSoup)
    (te : TitleEl) (href : String) (bs : List SwatchButton)
    (h1 : ps.titleEl = some te) (h2 : te.href = some href)
    (h3 : (env.detail (urljoin BASE_URL href)).swatches = some bs)
    (h4 : ((bs.filter (fun b => !b.disabled)).map SwatchButton.value).Nodup)
    (h5 : ∀ b ∈ bs, b.disabled = false →
      (pyFloat (removeDollars b.displayedPrice)).isSome) :
    ((parse_hdd_block_prices env s ps).1).map (List.map Prod.fst) =
      .ok ((bs.filter (fun b => !b.disabled)).map SwatchButton.value) ∧
    ((parse_hdd_block_prices env s ps).1).map List.length =
      .ok ((bs.filter (fun b => !b.disabled)).length) := by
  obtain ⟨m, hm, hkeys⟩ := hddLoop_keys bs [] h4 (by simp) h5
  have hres : (parse_hdd_block_prices env s ps).1 = .ok m := by
    rw [parse_hdd_block_prices, h1]
    dsimp only
    rw [h2]
    dsimp only
    rw [hddOnPage, h3]
    exact hm
  simp only [List.map_nil, List.nil_append] at hkeys
  constructor
  · rw [hres]
    simp only [Except.map]
    rw [hkeys]
  · rw [hres]
    simp only [Except.map]
    have : m.length = ((bs.filter (fun b => !b.disabled)).map SwatchButton.value).length := by
      rw [← List.length_map m Prod.fst, hkeys]
    rw [this, List.length_map]

/-- C5 counterexample: a swatches control with 3 options, one disabled,
whose two enabled options share the label `"1TB"`, resolves to a single
entry — not the two entries the claim demands. -/
theorem hdd_prices_duplicate_cex :
    (parse_hdd_block_prices envDupLabels none cardLink).1 =
      .ok [("1TB", ⟨200, 0⟩)] ∧
    [("1TB", (⟨200, 0⟩ : Decimal))].length = 1 := ⟨rfl, rfl⟩

/-- C5 witness: three options with one disabled and distinct labels yield
exactly the two enabled labels as keys. -/
theorem hdd_prices_enabled_witness :
    ((parse_hdd_block_prices envThreeOptions none cardLink).1).map
        (List.map Prod.fst) = .ok ["128", "512"] ∧
    ((parse_hdd_block_prices envThreeOptions none cardLink).1).map
        List.length = .ok 2 :=
  hdd_prices_enabled envThreeOptions none cardLink ⟨none, some "product/5"⟩
    "product/5"
    [⟨false, "128", 1, "$999.99"⟩, ⟨true, "256", 0, "$1099"⟩,
     ⟨false, "512", 0, "$1124.99"⟩]
    rfl rfl rfl (by decide) (by decide)

/-! ### Claim C7: CSV layout -/

/-- C7: the writer emits the header row of the `Product` field names in
declaration order, followed by exactly one data row per record whose cells
are that record's field values in the same declared order. -/
theorem csv_layout (ps : List Product) (p : Product) :
    PRODUCT_FIELDS = ["title", "description", "price", "rating",
      "num_of_reviews", "additional_info", "url"] ∧
    (write_products_to_csv ps).head? = some (PRODUCT_FIELDS.map Cell.str) ∧
    (write_products_to_csv ps).length = ps.length + 1 ∧
    (write_products_to_csv ps).tail = ps.map astuple ∧
    astuple p = [Cell.str p.title, Cell.str p.description, Cell.float p.price,
      Cell.int p.rating, Cell.int p.num_of_reviews, Cell.dict p.additional_info,
      Cell.str p.url] ∧
    (astuple p).length = PRODUCT_FIELDS.length := by
  refine ⟨rfl, rfl, ?_, rfl, rfl, rfl⟩
  simp [write_products_to_csv]

/-! ### Claim C9: the pipeline is deterministic -/

theorem walkFrom_indep (env : Env) (nums : List Int) :
    ∀ s1 s2, (walkFrom env s1 nums).result = (walkFrom env s2 nums).result ∧
      (walkFrom env s1 nums).fetched = (walkFrom env s2 nums).fetched := by
  induction nums with
  | nil => intro s1 s2; exact ⟨rfl, rfl⟩
  | cons p rest ih =>
    intro s1 s2
    simp only [walkFrom]
    rw [parseProducts_fst_indep env _ s1 s2]
    cases (parseProducts env s2 (env.fetch (some p)).thumbnails).1 with
    | error e => exact ⟨rfl, rfl⟩
    | ok l =>
      obtain ⟨hr, hf⟩ := ih ((parseProducts env s1 (env.fetch (some p)).thumbnails).2)
        ((parseProducts env s2 (env.fetch (some p)).thumbnails).2)
      exact ⟨by dsimp only; rw [hr], by dsimp only; rw [hf]⟩

/-- C9: two runs over the same fixed markup produce identical parsed
products, identical fetch sequences, and identical written CSV rows,
whatever page the shared browser session was showing when each run
started — the pipeline from parsed markup to written rows is
deterministic. -/
theorem pipeline_deterministic (env : Env) (s1 s2 : DriverState) :
    (get_laptop_products env s1).result = (get_laptop_products env s2).result ∧
    (get_laptop_products env s1).fetched = (get_laptop_products env s2).fetched ∧
    (mainRun env s1).1 = (mainRun env s2).1 := by
  have h : (get_laptop_products env s1).result = (get_laptop_products env s2).result ∧
      (get_laptop_products env s1).fetched = (get_laptop_products env s2).fetched := by
    simp only [get_laptop_products]
    cases get_num_pages (env.fetch none) with
    | error e => exact ⟨rfl, rfl⟩
    | ok n =>
      rw [parseProducts_fst_indep env _ s1 s2]
      cases (parseProducts env s2 (env.fetch none).thumbnails).1 with
      | error e => exact ⟨rfl, rfl⟩
      | ok l =>
        obtain ⟨hr, hf⟩ := walkFrom_indep env (pythonRange 2 (n + 1))
          ((parseProducts env s1 (env.fetch none).thumbnails).2)
          ((parseProducts env s2 (env.fetch none).thumbnails).2)
        exact ⟨by dsimp only; rw [hr], by dsimp only; rw [hf]⟩
  refine ⟨h.1, h.2, ?_⟩
  simp only [mainRun]
  rw [h.1]

/-! ### Claim C1: the listing walk -/

/-- C1: when the first page declares N total pages and the walk succeeds,
exactly N page fetches are issued — page 1 with no page parameter, pages
2..N with the page index as query parameter — and the returned collection
is the page-indexed concatenation of per-page parses, so its length is the
sum of per-page product counts and its order is page index ascending then
in-page document order. -/
theorem laptop_walker_pages (env : Env) (s : DriverState) (N : Int)
    (prods : List Product)
    (h1 : get_num_pages (env.fetch none) = .ok N)
    (h2 : 1 ≤ N)
    (h3 : (get_laptop_products env s).result = .ok prods) :
    (get_laptop_products env s).fetched =
      none :: (pythonRange 2 (N + 1)).map some ∧
    ((get_laptop_products env s).fetched).length = N.toNat ∧
    (∃ pls : List (List Product),
      prods = pls.flatten ∧ pls.length = N.toNat ∧
      ∀ (i : Nat) (hp : i < pls.length),
        pureParsePage env (walkedPage env i) = some (pls.get ⟨i, hp⟩)) ∧
    prods.length = ((List.range N.toNat).map
      (fun i => (walkedPage env i).thumbnails.length)).sum ∧
    (∀ (soup : PageSoup) (l : List Product),
      pureParsePage env soup = some l →
      l.length = soup.thumbnails.length ∧
      ∀ (j : Nat) (hj : j < soup.thumbnails.length) (hl : j < l.length),
        (parse_single_product env none (soup.thumbnails.get ⟨j, hj⟩)).1 =
          .ok (l.get ⟨j, hl⟩)) := by
  have hE : ∀ (soup : PageSoup) (l : List Product),
      pureParsePage env soup = some l →
      l.length = soup.thumbnails.length ∧
      ∀ (j : Nat) (hj : j < soup.thumbnails.length) (hl : j < l.length),
        (parse_single_product env none (soup.thumbnails.get ⟨j, hj⟩)).1 =
          .ok (l.get ⟨j, hl⟩) := by
    intro soup l hsl
    have h := parseProducts_ok_spec env soup.thumbnails none l (toOption_ok hsl)
    exact ⟨h.1, fun j hj hl => h.2 j hj hl⟩
  cases hfirst : (parseProducts env s (env.fetch none).thumbnails).1 with
  | error e =>
    exfalso
    simp [get_laptop_products, h1, hfirst] at h3
  | ok l0 =>
    cases hrest : (walkFrom env
        ((parseProducts env s (env.fetch none).thumbnails).2)
        (pythonRange 2 (N + 1))).result with
    | error e =>
      exfalso
      simp [get_laptop_products, h1, hfirst, hrest, Except.map] at h3
    | ok l1 =>
      have hprods : prods = l0 ++ l1 := by
        have h3c := h3
        simp [get_laptop_products, h1, hfirst, hrest, Except.map] at h3c
        exact h3c.symm
      obtain ⟨hfetchedW, pls1, hjoin, hlen1, hget1⟩ := walkFrom_ok env _ _ _ hrest
      have hFet : (get_laptop_products env s).fetched =
          none :: (pythonRange 2 (N + 1)).map some := by
        simp only [get_laptop_products, h1, hfirst]
        rw [hfetchedW]
      have hC : ∀ (i : Nat) (hp : i < (l0 :: pls1).length),
          pureParsePage env (walkedPage env i) = some ((l0 :: pls1).get ⟨i, hp⟩) := by
        intro i hp
        cases i with
        | zero =>
          simp only [walkedPage, pureParsePage, List.get]
          rw [parseProducts_fst_indep env _ none s, hfirst]
          rfl
        | succ k =>
          have hkp : k < pls1.length := by
            have : k + 1 < pls1.length + 1 := by simpa using hp
            omega
          have hk : k < (pythonRange 2 (N + 1)).length := hlen1 ▸ hkp
          have hpt := hget1 k hk hkp
          rw [pythonRange_get] at hpt
          simp only [walkedPage, pureParsePage, List.get]
          rw [hpt]
          rfl
      have hlenEq : (l0 :: pls1).length = N.toNat := by
        have hq : pls1.length = (N + 1 - 2).toNat := by
          rw [hlen1, pythonRange_length]
        simp only [List.length_cons]
        omega
      have hB : ((get_laptop_products env s).fetched).length = N.toNat := by
        rw [hFet]
        simp only [List.length_cons, List.length_map, pythonRange_length]
        omega
      have hflat : prods = (l0 :: pls1).flatten := by
        rw [hprods]
        simp [hjoin]
      have hmaps : (l0 :: pls1).map List.length =
          (List.range N.toNat).map
            (fun i => (walkedPage env i).thumbnails.length) := by
        apply List.ext_get
        · simp only [List.length_map, List.length_range]
          exact hlenEq
        · intro i hi1 hi2
          have hp : i < (l0 :: pls1).length := by simpa using hi1
          have hlen := (hE (walkedPage env i) ((l0 :: pls1).get ⟨i, hp⟩)
            (hC i hp)).1
          simp only [List.get_eq_getElem, List.getElem_map, List.getElem_range]
          simpa using hlen
      have hD : prods.length = ((List.range N.toNat).map
          (fun i => (walkedPage env i).thumbnails.length)).sum := by
        calc prods.length = ((l0 :: pls1).map List.length).sum := by
              rw [hprods, hjoin]
              simp
          _ = _ := by rw [hmaps]
      exact ⟨hFet, hB, ⟨l0 :: pls1, hflat, hlenEq, hC⟩, hD, hE⟩

/-- C1 witness: the two-page fixture is fetched as page 1 then `page=2`,
and yields its two products in page-then-document order. -/
theorem laptop_walker_pages_witness :
    (get_laptop_products envTwoPages none).fetched = [none, some 2] ∧
    ((get_laptop_products envTwoPages none).fetched).length = 2 ∧
    (∃ pls : List (List Product),
      [prodFull, prodFull2] = pls.flatten ∧ pls.length = 2 ∧
      ∀ (i : Nat) (hp : i < pls.length),
        pureParsePage envTwoPages (walkedPage envTwoPages i) =
          some (pls.get ⟨i, hp⟩)) ∧
    [prodFull, prodFull2].length = ((List.range 2).map
      (fun i => (walkedPage envTwoPages i).thumbnails.length)).sum ∧
    (∀ (soup : PageSoup) (l : List Product),
      pureParsePage envTwoPages soup = some l →
      l.length = soup.thumbnails.length ∧
      ∀ (j : Nat) (hj : j < soup.thumbnails.length) (hl : j < l.length),
        (parse_single_product envTwoPages none (soup.thumbnails.get ⟨j, hj⟩)).1 =
          .ok (l.get ⟨j, hl⟩)) :=
  laptop_walker_pages envTwoPages none 2 [prodFull, prodFull2]
    rfl (by decide) rfl

end Scrape
